import Mathlib

/-!
Verification development for the mesh coordination and control-plane subsystem
of the vscode-api-expose extension.  The definitions below are shallow
embeddings of the coordination class in src/src/extension.ts (second copy of
the class, lines 780-1540) and of the socket bridge in src/unnamed/part_003.
External collaborators (the JavaScript evaluator, the OS socket layer, the
JSON parser, the network) are passed in as explicit oracle parameters; the
control flow of each handler is translated statement by statement.
-/

namespace ApiMesh

/-- JSON-serializable values, as produced by JSON.parse and consumed by
res.json.  Objects keep their fields in insertion order. -/
inductive SVal where
  | null
  | bool (b : Bool)
  | num (n : Int)
  | str (s : String)
  | obj (fields : List (String × SVal))
deriving Repr

/-- An HTTP response from one of the express handlers: either a 200 with a
JSON body (res.json), or an error status with the message that the handler
put into the error field of the JSON body (res.status(code).json). -/
inductive HttpResp where
  | ok (body : SVal)
  | err (status : Nat) (error : String)
deriving Repr

/-! ## Two-phase execution gateway: POST /exec-with-action
(src/src/extension.ts lines 1418-1464).

The handler builds an AsyncFunction from the request field code and awaits
it; if the request carries a truthy onResult string it builds a second
AsyncFunction whose first parameter is named result and awaits it on the
first value.  The whole body is a single try/catch: any throw, from either
phase, is answered with res.status(500) and a JSON body carrying success
false and the error message.  The evaluator is the JavaScript engine, an
external collaborator, so it enters the model as the outcome runMain of the
first phase and, when onResult is present, as the function that the second
phase denotes, applied to the first value. -/

/-- Embedding of the POST /exec-with-action handler.  runMain is the outcome
of awaiting the AsyncFunction built from code; onResult is none when the
request has no truthy onResult string, and otherwise the denotation of the
reaction body applied to the first result.  On the success path the handler
answers res.json with fields result and actionResult (actionResult was
initialised to null and stays null when onResult is absent). -/
def execWithAction (runMain : Except String SVal)
    (onResult : Option (SVal → Except String SVal)) : HttpResp :=
  match runMain with
  | Except.error e => HttpResp.err 500 e
  | Except.ok result =>
    match onResult with
    | none => HttpResp.ok (SVal.obj [("result", result), ("actionResult", SVal.null)])
    | some act =>
      match act result with
      | Except.error e => HttpResp.err 500 e
      | Except.ok actionResult =>
          HttpResp.ok (SVal.obj [("result", result), ("actionResult", actionResult)])

/-- Denotation of the JavaScript body of the string return 2. -/
def evalReturnTwo : Except String SVal := Except.ok (SVal.num 2)

/-- Denotation of the JavaScript body of the string return result * 10, as a
function of the bound variable result: a number is multiplied by 10; on the
values outside the numeric case JavaScript would produce NaN, which
serializes as null, and that case is never exercised by the claims. -/
def evalMulTenBody (result : SVal) : Except String SVal :=
  match result with
  | SVal.num n => Except.ok (SVal.num (n * 10))
  | _ => Except.ok SVal.null

/-- Claim C1, counterexample: when the first phase succeeds with the value 2
and the reaction phase throws boom, the response is the bare 500 error
answer, and it is literally identical to the response produced when the
first phase itself throws boom — so the response conveys neither that the
first phase succeeded nor what its result was. -/
theorem exec_with_action_reaction_failure_hides_first_result :
    execWithAction (Except.ok (SVal.num 2)) (some (fun _ => Except.error "boom"))
      = HttpResp.err 500 "boom"
    ∧ execWithAction (Except.ok (SVal.num 2)) (some (fun _ => Except.error "boom"))
      = execWithAction (Except.error "boom") none :=
  ⟨rfl, rfl⟩

/-- Claim C1 as amended: the reaction phase is evaluated only when the first
phase completes without throwing (a first-phase failure yields the same 500
answer whatever reaction function is supplied, so the reaction is never
consulted), but a failure thrown by the reaction phase is reported through
the same error path as a first-phase failure: a plain 500 error answer that
does not carry the first-phase result. -/
theorem exec_with_action_reaction_only_after_success :
    (∀ (e : String) (f g : SVal → Except String SVal),
        execWithAction (Except.error e) (some f) = HttpResp.err 500 e
        ∧ execWithAction (Except.error e) (some f)
            = execWithAction (Except.error e) (some g))
    ∧ (∀ (v : SVal) (f : SVal → Except String SVal) (e : String),
        f v = Except.error e →
        execWithAction (Except.ok v) (some f) = HttpResp.err 500 e) := by
  constructor
  · intro e f g
    exact ⟨rfl, rfl⟩
  · intro v f e hf
    simp [execWithAction, hf]

/-- Witness for the amended claim C1 at a concrete input: first phase returns
7, reaction throws reactfail, and the response is the bare 500 answer. -/
theorem exec_with_action_reaction_only_after_success_witness :
    execWithAction (Except.ok (SVal.num 7)) (some (fun _ => Except.error "reactfail"))
      = HttpResp.err 500 "reactfail" :=
  exec_with_action_reaction_only_after_success.2 (SVal.num 7)
    (fun _ => Except.error "reactfail") "reactfail" rfl

/-- Claim C4: on the success path the handler returns both phase results
bound together in one JSON body with fields result and actionResult, the
reaction function receiving the first-phase value as its bound input; in
particular the denotations of return 2 and return result * 10 produce the
body with result 2 and actionResult 20. -/
theorem exec_with_action_success_path :
    (∀ (v w : SVal) (f : SVal → Except String SVal),
        f v = Except.ok w →
        execWithAction (Except.ok v) (some f)
          = HttpResp.ok (SVal.obj [("result", v), ("actionResult", w)]))
    ∧ execWithAction evalReturnTwo (some evalMulTenBody)
        = HttpResp.ok (SVal.obj [("result", SVal.num 2), ("actionResult", SVal.num 20)]) := by
  constructor
  · intro v w f hf
    simp [execWithAction, hf]
  · rfl

/-- Witness for claim C4 at a concrete input, discharging the success
hypothesis on the denotation of return result * 10 applied to 2. -/
theorem exec_with_action_success_path_witness :
    execWithAction (Except.ok (SVal.num 2)) (some evalMulTenBody)
      = HttpResp.ok (SVal.obj [("result", SVal.num 2), ("actionResult", SVal.num 20)]) :=
  exec_with_action_success_path.1 (SVal.num 2) (SVal.num 20) evalMulTenBody rfl

/-! ## Broadcast router: broadcastToMesh
(src/src/extension.ts lines 1385-1401).

The loop walks the in-memory peer table in order, skips peers whose
isConnected flag is false, and for each remaining peer performs, inside a
per-peer try/catch, an httpPost to peer.baseUrl ++ endpoint followed by
JSON.parse of the raw response; the try block pushes an entry with fields
sessionId and result, the catch pushes an entry with fields sessionId and
error.  The network and the JSON parser are external collaborators and enter
the model as the oracles net and jsonParse; a timeout surfaces as an error
from net, exactly as httpPost rejects with the Timeout error. -/

/-- Local derived view of one remote session, as kept in the meshPeers
table. -/
structure MeshPeer where
  sessionId : String
  port : Nat
  baseUrl : String
  lastHeartbeat : Int
  isConnected : Bool
deriving Repr, DecidableEq

/-- One per-peer outcome pushed by broadcastToMesh: the sessionId together
with either the parsed result or the error message of the failed request. -/
structure BroadcastEntry where
  sessionId : String
  outcome : Except String SVal
deriving Repr

/-- The body of the per-peer try/catch: post to the peer and parse the
response; either failure is caught by the same catch and recorded as the
error field of the entry. -/
def peerOutcome (net : String → Except String String)
    (jsonParse : String → Except String SVal) (endpoint : String)
    (peer : MeshPeer) : BroadcastEntry :=
  { sessionId := peer.sessionId,
    outcome := (net (peer.baseUrl ++ endpoint)).bind jsonParse }

/-- Embedding of broadcastToMesh: the for-of loop over the peer table in
iteration order, guarded by isConnected, accumulating one entry per
attempted peer.  The function is total: no failure of an individual peer
escapes the per-peer try/catch. -/
def broadcastToMesh (net : String → Except String String)
    (jsonParse : String → Except String SVal) (endpoint : String) :
    List MeshPeer → List BroadcastEntry
  | [] => []
  | peer :: rest =>
    if peer.isConnected then
      peerOutcome net jsonParse endpoint peer
        :: broadcastToMesh net jsonParse endpoint rest
    else broadcastToMesh net jsonParse endpoint rest

/-- True when the entry records a failed request. -/
def BroadcastEntry.isErr (e : BroadcastEntry) : Bool :=
  match e.outcome with
  | Except.error _ => true
  | Except.ok _ => false

/-- True when the request oracle fails for this peer on this endpoint. -/
def peerFails (net : String → Except String String)
    (jsonParse : String → Except String SVal) (endpoint : String)
    (peer : MeshPeer) : Bool :=
  (peerOutcome net jsonParse endpoint peer).isErr

/-- Claim C2: broadcast returns exactly one outcome entry per connected peer
of the table — the entry list is the pointwise image of the connected peers,
so with N connected peers of which M fail (unreachable, refused, timed out,
or unparsable reply) there are exactly N entries, M of them carrying an
error and N minus M carrying a result — and one failing peer never prevents
the request to the remaining peers, whose entries are determined by their
own requests alone.  The operation itself never raises for a partial
failure: it is a total function into an entry list. -/
theorem broadcast_one_entry_per_live_peer
    (net : String → Except String String)
    (jsonParse : String → Except String SVal) (endpoint : String)
    (peers : List MeshPeer) :
    broadcastToMesh net jsonParse endpoint peers
      = (peers.filter (fun p => p.isConnected)).map
          (peerOutcome net jsonParse endpoint)
    ∧ (broadcastToMesh net jsonParse endpoint peers).length
      = (peers.filter (fun p => p.isConnected)).length
    ∧ ((broadcastToMesh net jsonParse endpoint peers).filter
          (fun e => e.isErr)).length
      = ((peers.filter (fun p => p.isConnected)).filter
          (peerFails net jsonParse endpoint)).length
    ∧ ((broadcastToMesh net jsonParse endpoint peers).filter
          (fun e => !e.isErr)).length
      = ((peers.filter (fun p => p.isConnected)).filter
          (fun p => !peerFails net jsonParse endpoint p)).length := by
  have hmap : broadcastToMesh net jsonParse endpoint peers
      = (peers.filter (fun p => p.isConnected)).map
          (peerOutcome net jsonParse endpoint) := by
    induction peers with
    | nil => rfl
    | cons p rest ih =>
      by_cases hc : p.isConnected
      · simp [broadcastToMesh, List.filter, hc, ih]
      · simp [broadcastToMesh, List.filter, hc, ih]
  refine ⟨hmap, ?_, ?_, ?_⟩
  · rw [hmap, List.length_map]
  · rw [hmap, List.filter_map, List.length_map]
    rfl
  · rw [hmap, List.filter_map, List.length_map]
    rfl

/-! ## Dynamic endpoint registry
(src/src/extension.ts: POST /add-endpoint lines 980-996, POST
/remove-endpoint lines 999-1009, removeDynamicEndpoint lines 1510-1539).

The express application state that these handlers manipulate is the
router stack (the ordered list of registered routes; dispatch of a GET is
first match wins) together with the dynamicEndpoints Map from path to the
installed handler.  A dynamically installed handler always answers a JSON
body with fields success, dynamic, path and response, so it is determined by
the pair of path and response payload; built-in routes carry an opaque
tag. -/

/-- Body served by one router-stack route. -/
inductive RouteBody where
  | dyn (path : String) (response : SVal)
  | builtin (tag : String)
deriving Repr

/-- One entry of the express router stack. -/
structure Route where
  path : String
  body : RouteBody
deriving Repr

/-- The mutable state the endpoint handlers act on: the express router stack
and the dynamicEndpoints Map (modelled as an association list in insertion
order, keyed by path and holding the response payload the installed handler
serves). -/
structure AppState where
  stack : List Route
  dynamicEndpoints : List (String × SVal)
deriving Repr

/-- The empty application state. -/
def app0 : AppState := { stack := [], dynamicEndpoints := [] }

/-- JavaScript Map.set: replace the value at an existing key, else append. -/
def mapSet (m : List (String × SVal)) (k : String) (v : SVal) :
    List (String × SVal) :=
  match m with
  | [] => [(k, v)]
  | (k0, v0) :: rest =>
    if k0 = k then (k, v) :: rest else (k0, v0) :: mapSet rest k v

/-- Path validation shared by both handlers: the request path must be a
nonempty string starting with a slash (the falsy check on the empty string
is subsumed, since the empty string starts with nothing).  A string starts
with the one-character prefix slash exactly when its first character is a
slash, which is how the check is phrased here. -/
def validEndpointPath (path : String) : Bool := path.data.head? == some '/'

/-- Embedding of removeDynamicEndpoint (lines 1510-1539): walk the router
stack from the end and splice out every entry whose route path equals the
argument (so all matches are removed, order of the rest preserved), then in
the finally block always delete the path from the dynamicEndpoints Map. -/
def removeDynamicEndpoint (s : AppState) (path : String) : AppState :=
  { stack := s.stack.filter (fun r => !(r.path == path)),
    dynamicEndpoints := s.dynamicEndpoints.filter (fun e => !(e.1 == path)) }

/-- Embedding of the POST /add-endpoint handler (lines 980-996): reject an
invalid path with a 400; if the path is already present in dynamicEndpoints
first call removeDynamicEndpoint; then register a fresh GET route (appended
to the router stack) serving the static payload and record it in the Map. -/
def addEndpoint (s : AppState) (path : String) (response : SVal) :
    HttpResp × AppState :=
  if validEndpointPath path then
    let s1 := if (s.dynamicEndpoints.lookup path).isSome
              then removeDynamicEndpoint s path else s
    (HttpResp.ok (SVal.obj [("success", SVal.bool true),
        ("message", SVal.str ("Endpoint " ++ path ++ " registered."))]),
      { stack := s1.stack ++ [{ path := path, body := RouteBody.dyn path response }],
        dynamicEndpoints := mapSet s1.dynamicEndpoints path response })
  else (HttpResp.err 400 "Invalid path. Must start with /.", s)

/-- Embedding of the POST /remove-endpoint handler (lines 999-1009): reject
an invalid path with a 400; answer 404 when the path is absent from
dynamicEndpoints; otherwise call removeDynamicEndpoint and answer 200. -/
def removeEndpoint (s : AppState) (path : String) : HttpResp × AppState :=
  if validEndpointPath path then
    if (s.dynamicEndpoints.lookup path).isSome then
      (HttpResp.ok (SVal.obj [("success", SVal.bool true),
          ("message", SVal.str ("Endpoint " ++ path ++ " removed."))]),
        removeDynamicEndpoint s path)
    else (HttpResp.err 404 "Endpoint not found.", s)
  else (HttpResp.err 400 "Invalid path. Must start with /.", s)

/-- Express dispatch of a GET request: the first route of the stack whose
path matches handles it; with no match express answers 404, modelled as
none. -/
def routeGet (s : AppState) (path : String) : Option RouteBody :=
  (s.stack.find? (fun r => r.path == path)).map (fun r => r.body)

/-- Looking up the key just written by mapSet yields the new value. -/
theorem lookup_mapSet_self (m : List (String × SVal)) (k : String) (v : SVal) :
    (mapSet m k v).lookup k = some v := by
  induction m with
  | nil => simp [mapSet, List.lookup]
  | cons e rest ih =>
    by_cases h : e.1 = k
    · simp [mapSet, h, List.lookup]
    · have hb : (k == e.1) = false := by
        rw [beq_eq_false_iff_ne]
        exact fun hk => h hk.symm
      simp [mapSet, h, List.lookup, hb, ih]

/-- After splicing out every route at a path, no route at that path remains
to be filtered. -/
theorem filter_eq_of_filter_ne (l : List Route) (p : String) :
    ((l.filter fun r => !(r.path == p)).filter fun r => r.path == p) = [] := by
  rw [List.filter_eq_nil_iff]
  intro r hr
  have := (List.mem_filter.1 hr).2
  simp at this
  simp [this]

/-- After splicing out every route at a path, dispatch finds no route at
that path. -/
theorem find?_filter_ne (l : List Route) (p : String) :
    ((l.filter fun r => !(r.path == p)).find? fun r => r.path == p) = none := by
  rw [List.find?_eq_none]
  intro r hr
  have := (List.mem_filter.1 hr).2
  simp at this
  simp [this]

/-- Claim C3: dynamic-endpoint registration is idempotent in its path key.
Starting from any application state, registering a valid path with a first
payload and then re-registering the same path with a second payload leaves
exactly one route installed at that path on the router stack (the prior
handler is removed before the new one is installed), dispatch of a GET to
that path serves the second payload, and the bookkeeping Map records the
second payload. -/
theorem add_endpoint_idempotent (s : AppState) (path : String) (v1 v2 : SVal)
    (h : validEndpointPath path = true) :
    ((addEndpoint (addEndpoint s path v1).2 path v2).2.stack.filter
        fun r => r.path == path)
      = [{ path := path, body := RouteBody.dyn path v2 }]
    ∧ routeGet (addEndpoint (addEndpoint s path v1).2 path v2).2 path
      = some (RouteBody.dyn path v2)
    ∧ ((addEndpoint (addEndpoint s path v1).2 path v2).2.dynamicEndpoints.lookup
        path) = some v2 := by
  have hlook : (addEndpoint s path v1).2.dynamicEndpoints.lookup path = some v1 := by
    by_cases hc : (s.dynamicEndpoints.lookup path).isSome
    · simp only [addEndpoint, h, if_true, hc]
      exact lookup_mapSet_self _ path v1
    · simp only [addEndpoint, h, if_true, hc]
      exact lookup_mapSet_self _ path v1
  generalize hg : (addEndpoint s path v1).2 = t at hlook ⊢
  have hsome : (t.dynamicEndpoints.lookup path).isSome = true := by
    rw [hlook]; rfl
  refine ⟨?_, ?_, ?_⟩
  · simp only [addEndpoint, h, if_true, hsome, removeDynamicEndpoint]
    rw [List.filter_append, filter_eq_of_filter_ne]
    simp
  · simp only [addEndpoint, h, if_true, hsome, removeDynamicEndpoint, routeGet]
    rw [List.find?_append, find?_filter_ne]
    simp [List.find?]
  · simp only [addEndpoint, h, if_true, hsome, removeDynamicEndpoint]
    exact lookup_mapSet_self _ path v2

/-- Witness for claim C3 at a concrete input: on the empty state, register
/hello with payload a, re-register it with payload b; the one remaining
route serves b. -/
theorem add_endpoint_idempotent_witness :
    ((addEndpoint (addEndpoint app0 "/hello" (SVal.str "a")).2 "/hello"
        (SVal.str "b")).2.stack.filter fun r => r.path == "/hello")
      = [{ path := "/hello", body := RouteBody.dyn "/hello" (SVal.str "b") }]
    ∧ routeGet (addEndpoint (addEndpoint app0 "/hello" (SVal.str "a")).2 "/hello"
        (SVal.str "b")).2 "/hello"
      = some (RouteBody.dyn "/hello" (SVal.str "b"))
    ∧ ((addEndpoint (addEndpoint app0 "/hello" (SVal.str "a")).2 "/hello"
        (SVal.str "b")).2.dynamicEndpoints.lookup "/hello") = some (SVal.str "b") :=
  add_endpoint_idempotent app0 "/hello" (SVal.str "a") (SVal.str "b") (by decide)

/-- Claim C6, counterexample: at the path x no handler is registered (the
bookkeeping Map of the empty state is empty), yet the removal request is
answered with a 400 invalid-path error and not with a 404 — so removal does
not fail with 404 exactly when no handler is registered at the given
path. -/
theorem remove_endpoint_invalid_path_not_404 :
    app0.dynamicEndpoints.lookup "x" = none
    ∧ (removeEndpoint app0 "x").1 = HttpResp.err 400 "Invalid path. Must start with /." := by
  refine ⟨rfl, ?_⟩
  have hx : validEndpointPath "x" = false := by decide
  simp [removeEndpoint, hx]

/-- Claim C6 as amended: for well-formed paths (those starting with a slash,
the only ones registration accepts), removal fails with 404 exactly when no
handler is registered at the path, and a successful removal is reflected in
the live routing table in the same operation: dispatch of a GET to the path
right after the removal finds no route (a 404), never the previously
registered payload.  For a malformed path removal answers 400 regardless of
the registry contents. -/
theorem remove_endpoint_notfound_iff_unregistered (s : AppState) (path : String)
    (h : validEndpointPath path = true) :
    ((removeEndpoint s path).1 = HttpResp.err 404 "Endpoint not found."
        ↔ s.dynamicEndpoints.lookup path = none)
    ∧ (∀ v, s.dynamicEndpoints.lookup path = some v →
        (removeEndpoint s path).1
          = HttpResp.ok (SVal.obj [("success", SVal.bool true),
              ("message", SVal.str ("Endpoint " ++ path ++ " removed."))])
        ∧ routeGet (removeEndpoint s path).2 path = none) := by
  constructor
  · cases hc : s.dynamicEndpoints.lookup path with
    | none => simp [removeEndpoint, h, hc]
    | some v => simp [removeEndpoint, h, hc]
  · intro v hv
    constructor
    · simp [removeEndpoint, h, hv]
    · simp only [removeEndpoint, h, if_true, hv, Option.isSome_some,
        removeDynamicEndpoint, routeGet]
      rw [find?_filter_ne]
      rfl

/-- Witness for the amended claim C6 at a concrete input: register /w on the
empty state, then remove it; the removal answers 200 and an immediate GET to
/w finds no route. -/
theorem remove_endpoint_notfound_iff_unregistered_witness :
    (removeEndpoint (addEndpoint app0 "/w" (SVal.num 1)).2 "/w").1
      = HttpResp.ok (SVal.obj [("success", SVal.bool true),
          ("message", SVal.str ("Endpoint " ++ "/w" ++ " removed."))])
    ∧ routeGet (removeEndpoint (addEndpoint app0 "/w" (SVal.num 1)).2 "/w").2 "/w"
      = none :=
  (remove_endpoint_notfound_iff_unregistered (addEndpoint app0 "/w" (SVal.num 1)).2
    "/w" (by decide)).2 (SVal.num 1) (by rfl)

/-! ## Port allocator: findAvailablePortAndBind
(src/src/extension.ts lines 927-946, portRange at line 788).

For each candidate port of the fixed range in ascending order the method
opens a real listening socket; a successful bind is immediately closed and
the port returned, a bind error moves on to the next candidate, and when the
loop ends without a success the method throws.  The operating system socket
layer is the external collaborator: it enters the model as the oracle busy,
with busy p true exactly when binding port p fails.  The method consults
only this oracle — no registry bookkeeping appears among its inputs. -/

/-- Lower end of the fixed port range. -/
def portRangeMin : Nat := 3637

/-- Upper end of the fixed port range (ten concurrent sessions). -/
def portRangeMax : Nat := 3646

/-- The error thrown when the loop exhausts the range. -/
def noPortsMsg : String := "No available ports in the allowed range."

/-- The ascending probe loop, starting at port p with n candidates left. -/
def findPortLoop (busy : Nat → Bool) : Nat → Nat → Except String Nat
  | _, 0 => Except.error noPortsMsg
  | p, n + 1 => if busy p then findPortLoop busy (p + 1) n else Except.ok p

/-- Embedding of findAvailablePortAndBind: probe every port of the fixed
range in ascending order against the real socket layer and return the first
one that binds; throw when none does. -/
def findAvailablePortAndBind (busy : Nat → Bool) : Except String Nat :=
  findPortLoop busy portRangeMin (portRangeMax + 1 - portRangeMin)

/-- The loop fails exactly when every probed candidate is busy. -/
theorem findPortLoop_error_iff (busy : Nat → Bool) (p n : Nat) :
    findPortLoop busy p n = Except.error noPortsMsg
      ↔ ∀ q, p ≤ q → q < p + n → busy q = true := by
  induction n generalizing p with
  | zero =>
    simp [findPortLoop]
    intro q h1 h2
    omega
  | succ n ih =>
    by_cases hb : busy p
    · rw [findPortLoop, if_pos hb, ih]
      constructor
      · intro hall q h1 h2
        rcases Nat.eq_or_lt_of_le h1 with rfl | hlt
        · exact hb
        · exact hall q hlt (by omega)
      · intro hall q h1 h2
        exact hall q (by omega) (by omega)
    · rw [findPortLoop, if_neg hb]
      constructor
      · intro hcontra
        exact absurd hcontra (by simp)
      · intro hall
        exact absurd (hall p (Nat.le_refl p) (by omega)) hb

/-- The loop returns the smallest free probed candidate, and that candidate
really is free. -/
theorem findPortLoop_ok (busy : Nat → Bool) (p n r : Nat)
    (h : findPortLoop busy p n = Except.ok r) :
    busy r = false ∧ p ≤ r ∧ r < p + n ∧ ∀ q, p ≤ q → q < r → busy q = true := by
  induction n generalizing p with
  | zero => exact absurd h (by simp [findPortLoop])
  | succ n ih =>
    by_cases hb : busy p
    · rw [findPortLoop, if_pos hb] at h
      obtain ⟨h1, h2, h3, h4⟩ := ih (p + 1) h
      refine ⟨h1, by omega, by omega, ?_⟩
      intro q hq1 hq2
      rcases Nat.eq_or_lt_of_le hq1 with rfl | hlt
      · exact hb
      · exact h4 q hlt hq2
    · rw [findPortLoop, if_neg hb] at h
      cases h
      refine ⟨by simpa using hb, Nat.le_refl r, by omega, ?_⟩
      intro q hq1 hq2
      omega

/-- Claim C5: port acquisition probes the candidates of the fixed range in
ascending order against the real socket layer (its only input is the bind
oracle, not registry bookkeeping).  Whenever the range contains at least one
free port it returns the smallest free port of the range, and the returned
port is free, so it can be bound immediately afterward without conflict in
the state the probe observed; it throws the resource-exhausted error exactly
when no port of the range is free. -/
theorem find_available_port_spec (busy : Nat → Bool) :
    (findAvailablePortAndBind busy = Except.error noPortsMsg
      ↔ ∀ q, portRangeMin ≤ q → q ≤ portRangeMax → busy q = true)
    ∧ (∀ r, findAvailablePortAndBind busy = Except.ok r →
        busy r = false ∧ portRangeMin ≤ r ∧ r ≤ portRangeMax
        ∧ ∀ q, portRangeMin ≤ q → q < r → busy q = true) := by
  constructor
  · rw [findAvailablePortAndBind, findPortLoop_error_iff]
    constructor
    · intro hall q h1 h2
      exact hall q h1 (by simp [portRangeMin, portRangeMax] at h2 ⊢; omega)
    · intro hall q h1 h2
      exact hall q h1 (by simp [portRangeMin, portRangeMax] at h2 ⊢; omega)
  · intro r hr
    obtain ⟨h1, h2, h3, h4⟩ := findPortLoop_ok busy portRangeMin _ r hr
    exact ⟨h1, h2, by simp [portRangeMin, portRangeMax] at h3 ⊢; omega, h4⟩

/-- Witness for claim C5 at a concrete input: when exactly the first two
ports of the range are taken, the probe fails on 3637 and 3638 and returns
3639, which is free. -/
theorem find_available_port_spec_witness :
    findAvailablePortAndBind (fun p => decide (p ≤ 3638)) = Except.ok 3639
    ∧ (fun p => decide (p ≤ 3638)) 3639 = false
    ∧ findAvailablePortAndBind (fun _ => true) = Except.error noPortsMsg := by
  refine ⟨by rfl, ?_, ?_⟩
  · exact ((find_available_port_spec (fun p => decide (p ≤ 3638))).2 3639 (by rfl)).1
  · exact (find_available_port_spec (fun _ => true)).1.mpr (fun q h1 h2 => rfl)

/-! ## Shared session registry store
(src/src/extension.ts: readRegistry lines 871-881, startRegistryCleanup
lines 824-849, getRegistrySessions lines 910-924).

The store is one JSON document on shared storage mapping session id to
session record.  The filesystem and the JSON parser are external
collaborators: the file enters the model as a FileState (absent, unreadable,
or readable with raw contents) and JSON.parse as a parse oracle. -/

/-- One SessionRecord of the registry (the fields the registry logic
touches; lastSeen is the epoch-millisecond reading of the stored
timestamp). -/
structure SessionRec where
  id : String
  pid : Nat
  serverPort : Nat
  lastSeen : Int
deriving Repr, DecidableEq

/-- The persisted mapping from session id to record, in document order. -/
abbrev Registry := List (String × SessionRec)

/-- Observable state of the registry file: missing, present but unreadable
(readFileSync throws), or readable with raw text. -/
inductive FileState where
  | absent
  | unreadable (err : String)
  | content (raw : String)
deriving Repr

/-- Embedding of readRegistry: when the file exists, read and parse it
inside a try/catch; a read failure or a parse failure is caught and logged,
and every non-success path returns the empty mapping. -/
def readRegistry (jsonParse : String → Except String Registry) :
    FileState → Registry
  | FileState.absent => []
  | FileState.unreadable _ => []
  | FileState.content raw =>
    match jsonParse raw with
    | Except.ok reg => reg
    | Except.error _ => []

/-- Claim C8: reading the shared registry is total across the read boundary
(the embedding returns a mapping for every file state, never an exception),
and the missing, unreadable and corrupt cases all yield the empty mapping
while a parsable file yields exactly the parsed mapping. -/
theorem read_registry_total (jsonParse : String → Except String Registry) :
    readRegistry jsonParse FileState.absent = []
    ∧ (∀ e, readRegistry jsonParse (FileState.unreadable e) = [])
    ∧ (∀ raw e, jsonParse raw = Except.error e →
        readRegistry jsonParse (FileState.content raw) = [])
    ∧ (∀ raw reg, jsonParse raw = Except.ok reg →
        readRegistry jsonParse (FileState.content raw) = reg) := by
  refine ⟨rfl, fun e => rfl, ?_, ?_⟩
  · intro raw e he
    simp [readRegistry, he]
  · intro raw reg hr
    simp [readRegistry, hr]

/-- Witness for claim C8 at a concrete input: a parse oracle that rejects
everything but the empty document, applied to the corrupt text and to the
empty document. -/
theorem read_registry_total_witness :
    readRegistry (fun raw => if raw = "[]" then Except.ok [] else Except.error "bad")
      (FileState.content "garbage") = []
    ∧ readRegistry (fun raw => if raw = "[]" then Except.ok [] else Except.error "bad")
      (FileState.content "[]") = [] := by
  constructor
  · exact (read_registry_total _).2.2.1 "garbage" "bad" (by simp)
  · exact (read_registry_total _).2.2.2 "[]" [] (by simp)

/-- Staleness threshold of the periodic cleanup pass: ninety seconds in
milliseconds (the adjacent source comment says 120 seconds, but the constant
is 90 * 1000). -/
def cleanupThresholdMs : Int := 90 * 1000

/-- Staleness test of the cleanup pass: the record was last seen strictly
more than the threshold ago. -/
def isStaleForCleanup (now : Int) (r : SessionRec) : Bool :=
  decide (now - r.lastSeen > cleanupThresholdMs)

/-- Teardown of every dynamic endpoint of this session, as run by the
cleanup tick when its own record is evicted: removeDynamicEndpoint on each
registered path. -/
def removeAllOwnEndpoints (app : AppState) : AppState :=
  (app.dynamicEndpoints.map Prod.fst).foldl removeDynamicEndpoint app

/-- Outcome of one cleanup tick: the store contents after the tick, whether
writeRegistry was called, and the application state after any endpoint
teardown. -/
structure CleanupResult where
  store : Registry
  wrote : Bool
  app : AppState

/-- Embedding of one tick of startRegistryCleanup: read the registry, walk
every entry, and for each record whose lastSeen age strictly exceeds the
threshold remove all own dynamic endpoints when the record is this
session, delete the entry and mark the registry changed; persist the
registry exactly when something was deleted. -/
def registryCleanupTick (now : Int) (selfId : String) (reg : Registry)
    (app : AppState) : CleanupResult :=
  let survivors := reg.filter (fun e => !(isStaleForCleanup now e.2))
  let changed := reg.any (fun e => isStaleForCleanup now e.2)
  { store := if changed then survivors else reg,
    wrote := changed,
    app := if reg.any (fun e => e.1 == selfId && isStaleForCleanup now e.2)
           then removeAllOwnEndpoints app else app }

/-- Claim C9: a cleanup tick evicts from the store every record whose
lastSeen age exceeds the staleness threshold — the store after the tick is
exactly the non-stale part of what was read, whoever owns each record, so a
record of any other session is evicted all the same — and the registry is
re-persisted if and only if at least one record was evicted. -/
theorem cleanup_tick_evicts_stale (now : Int) (selfId : String) (reg : Registry)
    (app : AppState) :
    (registryCleanupTick now selfId reg app).store
      = reg.filter (fun e => !(isStaleForCleanup now e.2))
    ∧ (∀ id r, (id, r) ∈ reg → isStaleForCleanup now r = true →
        (id, r) ∉ (registryCleanupTick now selfId reg app).store)
    ∧ ((registryCleanupTick now selfId reg app).wrote = true
        ↔ ∃ e ∈ reg, isStaleForCleanup now e.2 = true) := by
  have hstore : (registryCleanupTick now selfId reg app).store
      = reg.filter (fun e => !(isStaleForCleanup now e.2)) := by
    by_cases hc : reg.any (fun e => isStaleForCleanup now e.2)
    · simp [registryCleanupTick, hc]
    · have hall : ∀ e ∈ reg, isStaleForCleanup now e.2 = false := by
        intro e he
        by_contra hx
        exact hc (List.any_eq_true.2 ⟨e, he, by simpa using hx⟩)
      have : reg.filter (fun e => !(isStaleForCleanup now e.2)) = reg := by
        apply List.filter_eq_self.2
        intro e he
        simp [hall e he]
      simp [registryCleanupTick, hc, this]
  refine ⟨hstore, ?_, ?_⟩
  · intro id r hmem hstale hcontra
    rw [hstore] at hcontra
    have := (List.mem_filter.1 hcontra).2
    simp [hstale] at this
  · simp [registryCleanupTick, List.any_eq_true]

/-- Witness for claim C9 at a concrete input: a registry holding a fresh
record of another session and a record of a third session last seen 91
seconds ago; the tick run by session me evicts the stale record of the
other session and writes the registry. -/
theorem cleanup_tick_evicts_stale_witness :
    (("dead", { id := "dead", pid := 1, serverPort := 3638, lastSeen := 0 })
        ∉ (registryCleanupTick 91000 "me"
            [("live", { id := "live", pid := 2, serverPort := 3639, lastSeen := 90000 }),
             ("dead", { id := "dead", pid := 1, serverPort := 3638, lastSeen := 0 })]
            app0).store)
    ∧ (registryCleanupTick 91000 "me"
        [("live", { id := "live", pid := 2, serverPort := 3639, lastSeen := 90000 }),
         ("dead", { id := "dead", pid := 1, serverPort := 3638, lastSeen := 0 })]
        app0).wrote = true := by
  constructor
  · exact (cleanup_tick_evicts_stale 91000 "me" _ app0).2.1 "dead"
      { id := "dead", pid := 1, serverPort := 3638, lastSeen := 0 }
      (by simp) (by decide)
  · exact (cleanup_tick_evicts_stale 91000 "me" _ app0).2.2.mpr
      ⟨("dead", { id := "dead", pid := 1, serverPort := 3638, lastSeen := 0 }),
        by simp, by decide⟩

/-- Freshness threshold of the discovery read: two minutes in milliseconds,
distinct from the ninety-second cleanup threshold. -/
def freshThresholdMs : Int := 2 * 60 * 1000

/-- Freshness test of the discovery read: the record was last seen strictly
less than two minutes ago. -/
def isFreshForDiscovery (now : Int) (r : SessionRec) : Bool :=
  decide (now - r.lastSeen < freshThresholdMs)

/-- Outcome of one getRegistrySessions call: the session list handed to the
caller, the store contents after the call, and whether writeRegistry was
called. -/
structure DiscoveryReadResult where
  sessions : List SessionRec
  store : Registry
  wrote : Bool

/-- Embedding of getRegistrySessions: read the registry, keep only the
records seen less than two minutes ago, write the filtered mapping back to
the shared store whenever its key count differs from what was read, and
return the values of the filtered mapping. -/
def getRegistrySessions (now : Int) (reg : Registry) : DiscoveryReadResult :=
  let fresh := reg.filter (fun e => isFreshForDiscovery now e.2)
  let wrote := fresh.length != reg.length
  { sessions := fresh.map Prod.snd,
    store := if wrote then fresh else reg,
    wrote := wrote }

/-- A filter keeps the length exactly when it drops nothing. -/
theorem length_filter_ne_iff {α : Type} (l : List α) (p : α → Bool) :
    ((l.filter p).length ≠ l.length) ↔ ∃ x ∈ l, p x = false := by
  induction l with
  | nil => simp
  | cons a rest ih =>
    by_cases ha : p a
    · have hstep : ((a :: List.filter p rest).length ≠ (a :: rest).length)
          ↔ ((List.filter p rest).length ≠ rest.length) := by
        simp only [List.length_cons]
        omega
      simp only [List.filter, ha, hstep, ih]
      simp [ha]
    · simp only [List.filter, ha]
      constructor
      · intro _
        exact ⟨a, List.mem_cons_self a rest, by simpa using ha⟩
      · intro _
        have := List.length_filter_le p rest
        simp
        omega

/-- Claim C10 (implicit in the code): the peer-discovery read itself mutates
the persistent store.  getRegistrySessions returns exactly the records whose
lastSeen age is strictly under two minutes — a different threshold from the
ninety-second cleanup pass — and whenever at least one record was filtered
out it writes the filtered mapping back, so the filtered-out records of
other sessions are gone from the store after a mere read. -/
theorem discovery_read_mutates_store (now : Int) (reg : Registry) :
    (getRegistrySessions now reg).sessions
      = (reg.filter (fun e => isFreshForDiscovery now e.2)).map Prod.snd
    ∧ (∀ s ∈ (getRegistrySessions now reg).sessions,
        now - s.lastSeen < freshThresholdMs)
    ∧ ((getRegistrySessions now reg).wrote = true
        ↔ ∃ e ∈ reg, isFreshForDiscovery now e.2 = false)
    ∧ ((getRegistrySessions now reg).wrote = true →
        (getRegistrySessions now reg).store
          = reg.filter (fun e => isFreshForDiscovery now e.2))
    ∧ freshThresholdMs ≠ cleanupThresholdMs := by
  refine ⟨rfl, ?_, ?_, ?_, by decide⟩
  · intro s hs
    rw [show (getRegistrySessions now reg).sessions
        = (reg.filter (fun e => isFreshForDiscovery now e.2)).map Prod.snd from rfl,
      List.mem_map] at hs
    obtain ⟨e, he, rfl⟩ := hs
    have := (List.mem_filter.1 he).2
    simpa [isFreshForDiscovery] using this
  · rw [show (getRegistrySessions now reg).wrote
        = ((reg.filter (fun e => isFreshForDiscovery now e.2)).length != reg.length)
        from rfl]
    rw [bne_iff_ne, length_filter_ne_iff]
  · intro hw
    simp only [getRegistrySessions] at hw ⊢
    simp [hw]

/-- Witness for claim C10 at a concrete input: a registry holding one record
two minutes old and one fresh record; the discovery read returns only the
fresh record, reports a write, and the store afterwards has lost the old
record. -/
theorem discovery_read_mutates_store_witness :
    (getRegistrySessions 120000
        [("old", { id := "old", pid := 1, serverPort := 3637, lastSeen := 0 }),
         ("new", { id := "new", pid := 2, serverPort := 3638, lastSeen := 100000 })]).wrote
      = true
    ∧ (getRegistrySessions 120000
        [("old", { id := "old", pid := 1, serverPort := 3637, lastSeen := 0 }),
         ("new", { id := "new", pid := 2, serverPort := 3638, lastSeen := 100000 })]).store
      = [("new", { id := "new", pid := 2, serverPort := 3638, lastSeen := 100000 })] := by
  have h := discovery_read_mutates_store 120000
    [("old", { id := "old", pid := 1, serverPort := 3637, lastSeen := 0 }),
     ("new", { id := "new", pid := 2, serverPort := 3638, lastSeen := 100000 })]
  have hw : (getRegistrySessions 120000
      [("old", { id := "old", pid := 1, serverPort := 3637, lastSeen := 0 }),
       ("new", { id := "new", pid := 2, serverPort := 3638, lastSeen := 100000 })]).wrote
      = true :=
    h.2.2.1.mpr ⟨("old", { id := "old", pid := 1, serverPort := 3637, lastSeen := 0 }),
      by simp, by decide⟩
  refine ⟨hw, ?_⟩
  rw [h.2.2.2.1 hw]
  decide

/-! ## Result serialization on the execution gateways
(src/src/extension.ts: POST /exec handler lines 1042-1087; socket bridge and
safeSerialize in src/unnamed/part_003 lines 22-33 and 58-76).

A value produced by evaluated JavaScript can contain functions and circular
references, so values are modelled as a graph: primitives are immediate and
objects are pointers into a heap of field lists.  JSON.stringify without a
replacer throws on a circular structure (it tracks the chain of ancestors of
the value being serialized) and silently drops function-valued and undefined
properties.  safeSerialize stringifies with a replacer backed by a WeakSet:
undefined becomes null, a function value becomes a Function placeholder
string, and an object already in the set becomes the Circular placeholder
string; the set is only ever added to, so it persists across siblings.  The
fuel arguments only bound the recursion depth: along any descent every
pointer step enters a node outside the current ancestor set and every field
step shortens a field list, so the chosen bound of two plus the node count
plus the total field count is never exhausted on the runs below. -/

/-- Reference into a JavaScript value graph: primitives, a function value
with its name (empty for anonymous), or a pointer to a heap node. -/
inductive JRef where
  | null
  | undef
  | bool (b : Bool)
  | num (n : Int)
  | str (s : String)
  | fn (name : String)
  | ptr (i : Nat)
deriving Repr, DecidableEq

/-- Heap of object nodes: node i holds the field list at position i, in
insertion order.  Sharing and cycles are expressed through repeated pointer
targets. -/
structure JHeap where
  nodes : List (List (String × JRef))
deriving Repr

/-- Fields of node i (a dangling pointer behaves as an empty object). -/
def fieldsOf (h : JHeap) (i : Nat) : List (String × JRef) :=
  (h.nodes.get? i).getD []

/-- Depth bound sufficient for every traversal of the heap (see the section
comment). -/
def heapFuel (h : JHeap) : Nat :=
  2 + h.nodes.length + (h.nodes.map List.length).sum

/-- The message of the TypeError thrown by JSON.stringify on a cycle. -/
def circularMsg : String := "Converting circular structure to JSON"

mutual

/-- JSON.stringify without a replacer, on one reference: path is the set of
ancestor nodes of the current value; meeting one of them again means the
structure is circular and stringify throws.  A function or undefined value
yields none (the enclosing property is dropped). -/
def jsonStringifyRef (h : JHeap) : Nat → List Nat → JRef → Except String (Option SVal)
  | 0, _, _ => Except.error circularMsg
  | _ + 1, _, JRef.null => Except.ok (some SVal.null)
  | _ + 1, _, JRef.undef => Except.ok none
  | _ + 1, _, JRef.bool b => Except.ok (some (SVal.bool b))
  | _ + 1, _, JRef.num n => Except.ok (some (SVal.num n))
  | _ + 1, _, JRef.str s => Except.ok (some (SVal.str s))
  | _ + 1, _, JRef.fn _ => Except.ok none
  | fuel + 1, path, JRef.ptr i =>
    if path.contains i then Except.error circularMsg
    else
      match jsonStringifyFields h fuel (i :: path) (fieldsOf h i) with
      | Except.error e => Except.error e
      | Except.ok fs => Except.ok (some (SVal.obj fs))

/-- JSON.stringify without a replacer, on the field list of one object:
serialize each field in order, dropping the ones whose value serializes to
none. -/
def jsonStringifyFields (h : JHeap) : Nat → List Nat → List (String × JRef) →
    Except String (List (String × SVal))
  | 0, _, _ => Except.error circularMsg
  | _ + 1, _, [] => Except.ok []
  | fuel + 1, path, (k, r) :: rest =>
    match jsonStringifyRef h fuel path r with
    | Except.error e => Except.error e
    | Except.ok v? =>
      match jsonStringifyFields h fuel path rest with
      | Except.error e => Except.error e
      | Except.ok rest2 =>
        Except.ok (match v? with
          | none => rest2
          | some v => (k, v) :: rest2)

end

/-- JSON.stringify of a whole value, as performed by res.json: ok none means
the stringified value is undefined (a bare function at top level), error
means stringify threw. -/
def jsonStringify (h : JHeap) (r : JRef) : Except String (Option SVal) :=
  jsonStringifyRef h (heapFuel h) [] r

/-- Embedding of the POST /exec handler: await the AsyncFunction built from
the code (outcome runMain over the value graph h), then answer
res.json(result) inside the same try; a throw from the evaluation or from
the stringification of the result reaches the same catch and is answered
with a 500.  res.json of undefined sends a 200 without a JSON body,
modelled as a 200 with null body. -/
def execHandler (h : JHeap) (runMain : Except String JRef) : HttpResp :=
  match runMain with
  | Except.error e => HttpResp.err 500 e
  | Except.ok v =>
    match jsonStringify h v with
    | Except.error e => HttpResp.err 500 e
    | Except.ok (some body) => HttpResp.ok body
    | Except.ok none => HttpResp.ok SVal.null

mutual

/-- The replacer of safeSerialize on one reference, threading the WeakSet of
already-seen object nodes: undefined becomes null, a function becomes its
placeholder string, an already-seen node becomes the Circular placeholder,
and a new node is added to the set before its fields are walked. -/
def serializeRef (h : JHeap) : Nat → List Nat → JRef → SVal × List Nat
  | 0, seen, _ => (SVal.null, seen)
  | _ + 1, seen, JRef.null => (SVal.null, seen)
  | _ + 1, seen, JRef.undef => (SVal.null, seen)
  | _ + 1, seen, JRef.bool b => (SVal.bool b, seen)
  | _ + 1, seen, JRef.num n => (SVal.num n, seen)
  | _ + 1, seen, JRef.str s => (SVal.str s, seen)
  | _ + 1, seen, JRef.fn name =>
    (SVal.str ("[Function:" ++ (if name = "" then "anonymous" else name) ++ "]"), seen)
  | fuel + 1, seen, JRef.ptr i =>
    if seen.contains i then (SVal.str "[Circular]", seen)
    else
      match serializeFields h fuel (i :: seen) (fieldsOf h i) with
      | (fs, seen2) => (SVal.obj fs, seen2)

/-- The replacer of safeSerialize on the field list of one object, threading
the seen set left to right; every field is kept (an undefined value was
already turned into null by the replacer). -/
def serializeFields (h : JHeap) : Nat → List Nat → List (String × JRef) →
    List (String × SVal) × List Nat
  | 0, seen, _ => ([], seen)
  | _ + 1, seen, [] => ([], seen)
  | fuel + 1, seen, (k, r) :: rest =>
    match serializeRef h fuel seen r with
    | (v, seen2) =>
      match serializeFields h fuel seen2 rest with
      | (vs, seen3) => ((k, v) :: vs, seen3)

end

/-- Embedding of safeSerialize: JSON.parse of JSON.stringify with the
WeakSet replacer, which on this value model is the replacer traversal
itself.  It is a total function into serializable values. -/
def safeSerialize (h : JHeap) (r : JRef) : SVal :=
  (serializeRef h (heapFuel h) [] r).1

/-- One reply line of the socket bridge. -/
inductive SockReply where
  | ok (result : SVal)
  | err (error : String)
deriving Repr

/-- Embedding of the exec action of the socket bridge (src/unnamed/part_003
lines 63-75): await the evaluated code, pass the value through safeSerialize
(total here, so the String fallback of its surrounding try/catch is never
taken) and reply ok with the result; an evaluation throw replies ok false
with the message. -/
def socketExec (h : JHeap) (run : Except String JRef) : SockReply :=
  match run with
  | Except.error e => SockReply.err e
  | Except.ok v => SockReply.ok (safeSerialize h v)

/-- A one-node heap whose node zero holds itself under the field self: the
value graph of a directly circular object. -/
def cyclicHeap : JHeap := { nodes := [[("self", JRef.ptr 0)]] }

/-- A one-node heap whose node zero holds a named function under the field
f. -/
def fnFieldHeap : JHeap := { nodes := [[("f", JRef.fn "cb")]] }

/-- Claim C7, counterexample: the code evaluated through POST /exec
completes successfully with a circular object, yet the handler answers a 500
error — res.json stringifies the raw result and the stringify throw reaches
the catch — so a non-serializable result does turn a successful evaluation
into an error response, and no placeholder appears.  A function-valued
property is silently dropped rather than replaced by a placeholder. -/
theorem exec_circular_result_is_error :
    execHandler cyclicHeap (Except.ok (JRef.ptr 0)) = HttpResp.err 500 circularMsg
    ∧ execHandler fnFieldHeap (Except.ok (JRef.ptr 0)) = HttpResp.ok (SVal.obj []) :=
  ⟨rfl, rfl⟩

/-- Claim C7 as amended: placeholder replacement lives on the socket-bridge
execution path, not on POST /exec.  There safeSerialize replaces a function
value by its Function placeholder string and an already-seen object by the
Circular placeholder instead of failing, the ok reply of the bridge carries
the serialized value for every successfully evaluated result, and on the
directly circular object the bridge answers ok with the Circular marker
where the HTTP handler answers a 500. -/
theorem socket_exec_replaces_nonserializable :
    (∀ (h : JHeap) (fuel : Nat) (seen : List Nat) (name : String),
        serializeRef h (fuel + 1) seen (JRef.fn name)
          = (SVal.str ("[Function:" ++ (if name = "" then "anonymous" else name) ++ "]"),
              seen))
    ∧ (∀ (h : JHeap) (fuel : Nat) (seen : List Nat) (i : Nat),
        seen.contains i = true →
        serializeRef h (fuel + 1) seen (JRef.ptr i) = (SVal.str "[Circular]", seen))
    ∧ (∀ (h : JHeap) (v : JRef),
        socketExec h (Except.ok v) = SockReply.ok (safeSerialize h v))
    ∧ socketExec cyclicHeap (Except.ok (JRef.ptr 0))
      = SockReply.ok (SVal.obj [("self", SVal.str "[Circular]")])
    ∧ socketExec fnFieldHeap (Except.ok (JRef.ptr 0))
      = SockReply.ok (SVal.obj [("f", SVal.str "[Function:cb]")]) := by
  refine ⟨fun h fuel seen name => rfl, ?_, fun h v => rfl, rfl, rfl⟩
  intro h fuel seen i hc
  simp [serializeRef, hc]
  exact List.mem_of_elem_eq_true hc

/-- Witness for the amended claim C7 at concrete inputs: the replacer turns
a reference to the already-seen node five into the Circular placeholder and
an anonymous function into its placeholder. -/
theorem socket_exec_replaces_nonserializable_witness :
    serializeRef cyclicHeap 1 [5] (JRef.ptr 5) = (SVal.str "[Circular]", [5])
    ∧ serializeRef cyclicHeap 1 [] (JRef.fn "")
      = (SVal.str "[Function:anonymous]", []) := by
  constructor
  · exact socket_exec_replaces_nonserializable.2.1 cyclicHeap 0 [5] 5 rfl
  · exact socket_exec_replaces_nonserializable.1 cyclicHeap 0 [] ""

end ApiMesh
